import Mathlib

/-!
Shallow embedding of the interactive terminal-demo widget
(`TerminalPreview` in `src/components/Features.tsx`) of the shuri-doc
repository.  The widget keeps a transcript of lines, a one-line input
buffer, a processing flag, a command history with a recall cursor, and a
fixed table of canned commands.  Submitting a line matches it against the
table and replays the canned output word by word; the asynchronous reveal
is modelled as a small-step machine where each `tick` event is one
resumption of the async code (one `await` boundary in the source).
-/

set_option maxRecDepth 40000

namespace ShurikenTerm

/-- Kind of a transcript line, mirroring the `type` field of
`TerminalLine` in the source (`'input' | 'output' | 'error' | 'info'`).
Timestamps are wall-clock decoration and are not modelled. -/
inductive LineKind where
  | line_input
  | line_output
  | line_error
  | line_info
deriving DecidableEq, Repr

/-- A transcript line: kind plus text content. -/
structure TermLine where
  kind : LineKind
  content : String
deriving DecidableEq, Repr

/-- One entry of the canned-command table `DEMO_COMMANDS`: the trigger
key, the canned output text, and the per-word reveal delay in ms. -/
structure CommandEntry where
  trigger : String
  output : String
  delay : Nat
deriving DecidableEq, Repr

/-- The canned help text (the `help` entry's template literal, verbatim). -/
def helpOutput : String :=
  "🥷 SHURIKEN CLI — Available Packages\n\n── UI-KIT ─────────────────────\n  setup       Install and configure UI components\n  update      Migrate UI components to newer versions\n  component   Generate a new UI component\n\n── JARVIS ─────────────────────\n  setup       Install and configure AI tools\n  component   Generate a React component template\n  deploy      Deploy application to production\n\n── BACKEND-TOOLS ──────────────\n  setup       Setup backend development environment\n  migrate     Run database migrations\n  seed        Seed database with test data\n\nType \x27shuriken <package> <command>\x27 to run a command\nType \x27clear\x27 to clear the terminal"

/-- The `help` entry of `DEMO_COMMANDS`. -/
def helpCmd : CommandEntry :=
  { trigger := "help", output := helpOutput, delay := 50 }

/-- The `ui-kit setup` entry of `DEMO_COMMANDS` (output verbatim). -/
def uiKitSetupCmd : CommandEntry :=
  { trigger := "ui-kit setup"
    output := "🎯 Setting up UI-KIT package...\n\n✅ Installing dependencies...\n✅ Configuring Tailwind CSS...\n✅ Setting up component library...\n✅ Creating example components...\n✅ Running initial build...\n\n🚀 UI-KIT setup completed successfully!\n   \n📁 Components available in: ./packages/ui-kit/components\n📖 Documentation: ./packages/ui-kit/README.md"
    delay := 80 }

/-- The `jarvis component button` entry of `DEMO_COMMANDS` (output verbatim). -/
def jarvisComponentButtonCmd : CommandEntry :=
  { trigger := "jarvis component button"
    output := "🤖 Generating React component: Button\n\n✅ Created ./src/components/Button/Button.tsx\n✅ Created ./src/components/Button/Button.module.css\n✅ Created ./src/components/Button/Button.test.tsx\n✅ Created ./src/components/Button/index.ts\n✅ Updated ./src/components/index.ts\n\n🎉 Component \x27Button\x27 generated successfully!"
    delay := 60 }

/-- The `backend-tools migrate` entry of `DEMO_COMMANDS` (output verbatim,
including the trailing spaces after `002_create_posts_table.sql`). -/
def backendToolsMigrateCmd : CommandEntry :=
  { trigger := "backend-tools migrate"
    output := "⚡ Running database migrations...\n\n✅ Migration 001_create_users_table.sql\n✅ Migration 002_create_posts_table.sql  \n✅ Migration 003_add_user_roles.sql\n✅ Migration 004_create_sessions_table.sql\n\n🎯 All migrations completed successfully!\n📊 Database schema is up to date"
    delay := 70 }

/-- The `version` entry of `DEMO_COMMANDS` (output verbatim). -/
def versionCmd : CommandEntry :=
  { trigger := "version", output := "🥷 Shuriken CLI v2.1.0\nBuilt with ❤️ for ninja developers", delay := 30 }

/-- The full command table, in declaration order of the object literal
`DEMO_COMMANDS` in the source (JS `Object.entries` preserves string-key
insertion order). -/
def DEMO_COMMANDS : List CommandEntry :=
  [helpCmd, uiKitSetupCmd, jarvisComponentButtonCmd, backendToolsMigrateCmd, versionCmd]

/-- JavaScript `String.prototype.trim()`: drop whitespace from both ends. -/
def jsTrim (s : String) : String :=
  ⟨((s.data.dropWhile Char.isWhitespace).reverse.dropWhile Char.isWhitespace).reverse⟩

/-- JavaScript `String.prototype.toLowerCase()` (ASCII case folding). -/
def jsToLower (s : String) : String :=
  ⟨s.data.map Char.toLower⟩

/-- JavaScript `String.prototype.split(' ')` on a character list: cut at
every single space, keeping empty pieces; always returns at least one
piece. -/
def splitSpAux : List Char → List Char → List (List Char)
  | [], acc => [acc.reverse]
  | c :: cs, acc =>
    if c = ' ' then acc.reverse :: splitSpAux cs []
    else splitSpAux cs (c :: acc)

/-- JavaScript `text.split(' ')` as a list of strings. -/
def jsSplit (s : String) : List String :=
  (splitSpAux s.data []).map (fun l => ⟨l⟩)

/-- Inverse of splitting on a single space: interleave the pieces with
one `' '` between consecutive pieces. -/
def joinSp : List (List Char) → List Char
  | [] => []
  | [w] => w
  | w :: ws => w ++ ' ' :: joinSp ws

/-- Collapse every run of whitespace characters into a single `' '`,
modelling the JavaScript `replace(/\s+/g, ' ')`.  The boolean flag says
whether the previous character was whitespace (i.e. a space was already
emitted for the current run). -/
def collapseWsAux : Bool → List Char → List Char
  | _, [] => []
  | prevWs, c :: cs =>
    if c.isWhitespace then
      (if prevWs then collapseWsAux true cs else ' ' :: collapseWsAux true cs)
    else c :: collapseWsAux false cs

/-- JavaScript `s.replace(/\s+/g, ' ')` on strings. -/
def collapseWs (s : String) : String :=
  ⟨collapseWsAux false s.data⟩

/-- The normalisation applied to the submitted command before matching:
`command.trim().toLowerCase()` followed by `.replace(/\s+/g, ' ').trim()`
(source lines 307 and 335). -/
def normalizeCmd (s : String) : String :=
  jsTrim (collapseWs (jsToLower (jsTrim s)))

/-- The normalisation applied to each table key before matching:
`key.replace(/\s+/g, ' ').trim()` (source line 337). -/
def normalizeKey (k : String) : String :=
  jsTrim (collapseWs k)

/-- JavaScript `s.startsWith(p)`. -/
def jsStartsWith (s p : String) : Bool :=
  p.data.isPrefixOf s.data

/-- The match predicate of `executeCommand`: the normalised input equals
the normalised trigger, or starts with the normalised trigger followed by
a space (source lines 338-341). -/
def entryMatches (cmd : String) (e : CommandEntry) : Bool :=
  let n := normalizeCmd cmd
  let k := normalizeKey e.trigger
  n == k || jsStartsWith n (k ++ " ")

/-- The matcher: first entry of the table, in declaration order, whose
trigger matches (source lines 336-342, `Object.entries(...).find(...)`). -/
def findMatch (table : List CommandEntry) (cmd : String) : Option CommandEntry :=
  table.find? (entryMatches cmd)

/-- The suspended remainder of an in-flight `executeCommand` call, one
constructor per kind of `await` boundary. -/
inductive Pending where
  /-- Waiting on the 500 ms "simulate processing" delay; carries the raw
  command (needed for the error message) and the precomputed match. -/
  | waitMatch (cmd : String) (matched : Option CommandEntry)
  /-- Waiting on a per-word delay inside `typewriterEffect`; carries the
  words not yet revealed and the accumulated `currentText`. -/
  | reveal (rest : List String) (currentText : String)
deriving DecidableEq, Repr

/-- The widget state: the `useState` fields of `TerminalPreview`
(transcript `lines`, `currentInput`, `isProcessing`, `commandHistory`,
`historyIndex` with `-1` meaning inactive) plus the suspended async
continuation `pending`. -/
structure TermState where
  lines : List TermLine
  currentInput : String
  isProcessing : Bool
  commandHistory : List String
  historyIndex : Int
  pending : Option Pending
deriving DecidableEq, Repr

/-- The user-visible events the widget handles, plus `tick`, the
resumption of the suspended async code after a timer fires. -/
inductive Event where
  | keyEnter
  | keyArrowUp
  | keyArrowDown
  /-- Typing into the input (`onChange` handler, `setCurrentInput`). -/
  | setInputText (s : String)
  /-- Clicking a sidebar suggestion (`handleSuggestionClick`). -/
  | suggestionClick (s : String)
  | tick
deriving DecidableEq, Repr

/-- The info line produced by the special-case `clear` command. -/
def clearedLine : TermLine :=
  { kind := .line_info, content := "🥷 Terminal cleared" }

/-- The error line for an unrecognised command (source lines 351-355). -/
def errorLine (command : String) : TermLine :=
  { kind := .line_error
    content := "❌ Command not found: " ++ command ++ "\nType \x27help\x27 to see available commands." }

/-- The per-word transcript update of `typewriterEffect` (source lines
290-301): replace the last line's content when that last line has kind
output, otherwise leave the transcript unchanged. -/
def updateLastOutput (lines : List TermLine) (content : String) : List TermLine :=
  match lines.getLast? with
  | some l =>
    if l.kind = .line_output then lines.dropLast ++ [{ kind := .line_output, content := content }]
    else lines
  | none => lines

/-- One step of the widget, parameterised by the command table.  Key
events have no effect while `isProcessing` (the input element carries
`disabled={isProcessing}` and the Enter branch additionally checks the
flag); `tick` resumes the suspended `executeCommand` continuation. -/
def stepT (table : List CommandEntry) : Event → TermState → TermState
  | .keyEnter, st =>
    if st.isProcessing then st
    else if jsTrim st.currentInput = "" then st
    else
      let command := st.currentInput
      let trimmedCommand := jsToLower (jsTrim command)
      if trimmedCommand = "clear" then
        { st with lines := [clearedLine], currentInput := "" }
      else if trimmedCommand = "" then
        { st with currentInput := "" }
      else
        { st with
            commandHistory := st.commandHistory ++ [command]
            historyIndex := -1
            lines := st.lines ++ [{ kind := .line_input, content := "$ shuriken " ++ command }]
            isProcessing := true
            pending := some (.waitMatch command (findMatch table command))
            currentInput := "" }
  | .keyArrowUp, st =>
    if st.isProcessing then st
    else if 0 < st.commandHistory.length then
      let newIndex : Int :=
        if st.historyIndex = -1 then (st.commandHistory.length : Int) - 1
        else max 0 (st.historyIndex - 1)
      { st with
          historyIndex := newIndex
          currentInput := st.commandHistory.getD newIndex.toNat "" }
    else st
  | .keyArrowDown, st =>
    if st.isProcessing then st
    else if -1 < st.historyIndex then
      let newIndex : Int := st.historyIndex + 1
      if (st.commandHistory.length : Int) ≤ newIndex then
        { st with historyIndex := -1, currentInput := "" }
      else
        { st with
            historyIndex := newIndex
            currentInput := st.commandHistory.getD newIndex.toNat "" }
    else st
  | .setInputText s, st =>
    if st.isProcessing then st else { st with currentInput := s }
  | .suggestionClick s, st =>
    if st.isProcessing then st else { st with currentInput := s }
  | .tick, st =>
    match st.pending with
    | none => st
    | some (.waitMatch cmd none) =>
      { st with
          lines := st.lines ++ [errorLine cmd]
          isProcessing := false
          pending := none }
    | some (.waitMatch _ (some e)) =>
      match jsSplit e.output with
      | [] =>
        { st with
            lines := st.lines ++ [{ kind := .line_output, content := "" }]
            isProcessing := false
            pending := none }
      | w :: rest =>
        { st with
            lines := st.lines ++ [{ kind := .line_output, content := w }]
            pending := some (.reveal rest w) }
    | some (.reveal [] _) =>
      { st with isProcessing := false, pending := none }
    | some (.reveal (w :: rest) cur) =>
      let cur' := cur ++ " " ++ w
      { st with
          lines := updateLastOutput st.lines cur'
          pending := some (.reveal rest cur') }

/-- The widget's step with the production command table. -/
def step : Event → TermState → TermState :=
  stepT DEMO_COMMANDS

/-- Iterated ticks: run `n` timer resumptions. -/
def runTicks (table : List CommandEntry) : Nat → TermState → TermState
  | 0, st => st
  | n + 1, st => runTicks table n (stepT table .tick st)

/-- Number of ticks needed to run a matched entry's reveal to completion:
one for the initial 500 ms delay and one per remaining word plus the
final delay (the source awaits after every word, the last included). -/
def revealTickCount (e : CommandEntry) : Nat :=
  (jsSplit e.output).length + 1

/-- The initial widget state: the two welcome info lines, empty input,
not processing, empty history, inactive cursor. -/
def initState : TermState :=
  { lines :=
      [{ kind := .line_info, content := "🥷 Welcome to Shuriken CLI Interactive Demo" },
       { kind := .line_info
         content := "Type \"help\" to see available commands, or try the suggestions below." }]
    currentInput := ""
    isProcessing := false
    commandHistory := []
    historyIndex := -1
    pending := none }


/-- Invariant tying the suspended reveal to the processing flag: whenever
an async continuation is pending, the widget is in processing state. -/
def ProcessingInv (st : TermState) : Prop :=
  st.pending ≠ none → st.isProcessing = true

/-- The part of the spec invariant the code maintains: an active cursor
always indexes a valid position in the history entries. -/
def CursorInv (st : TermState) : Prop :=
  st.historyIndex = -1 ∨
    (0 ≤ st.historyIndex ∧ st.historyIndex < (st.commandHistory.length : Int))

/-! ### Helper lemmas about the word split and the reveal accumulation -/

/-- String append acts as list append on the underlying character data. -/
theorem data_append (a b : String) : (a ++ b).data = a.data ++ b.data := by
  cases a; cases b; rfl

/-- Splitting always yields at least one piece. -/
theorem splitSpAux_ne_nil (cs acc : List Char) : splitSpAux cs acc ≠ [] := by
  induction cs generalizing acc with
  | nil => simp [splitSpAux]
  | cons c cs ih =>
    by_cases h : c = ' ' <;> simp [splitSpAux, h, ih]

/-- Joining the pieces of a split restores the original characters. -/
theorem joinSp_splitSpAux (cs acc : List Char) :
    joinSp (splitSpAux cs acc) = acc.reverse ++ cs := by
  induction cs generalizing acc with
  | nil => simp [splitSpAux, joinSp]
  | cons c cs ih =>
    by_cases h : c = ' '
    · subst h
      obtain ⟨w, ws, hws⟩ := List.exists_cons_of_ne_nil (splitSpAux_ne_nil cs [])
      simp only [splitSpAux, if_pos rfl, joinSp]
      rw [hws]
      show acc.reverse ++ ' ' :: joinSp (w :: ws) = acc.reverse ++ ' ' :: cs
      rw [← hws, ih]
      simp
    · simp only [splitSpAux, if_neg h]
      rw [ih]
      simp

/-- Prepending a word and a space commutes with `joinSp` on a nonempty
list of pieces. -/
theorem joinSp_cons_append (w u : List Char) (ws : List (List Char)) :
    joinSp ((w ++ ' ' :: u) :: ws) = w ++ ' ' :: joinSp (u :: ws) := by
  cases ws with
  | nil => simp [joinSp]
  | cons v vs => simp [joinSp]

/-- The accumulation performed by `typewriterEffect`
(`currentText += (i > 0 ? ' ' : '') + words[i]`). -/
def revealAccum (first : String) (rest : List String) : String :=
  rest.foldl (fun a w => a ++ " " ++ w) first

/-- The reveal accumulation over character-list pieces is `joinSp`. -/
theorem revealAccum_eq_joinSp (ws : List (List Char)) (w : List Char) :
    revealAccum ⟨w⟩ (ws.map (fun l => ⟨l⟩)) = ⟨joinSp (w :: ws)⟩ := by
  induction ws generalizing w with
  | nil => simp [revealAccum, joinSp]
  | cons u us ih =>
    show revealAccum ((⟨w⟩ : String) ++ " " ++ (⟨u⟩ : String)) (us.map _) = _
    have h1 : (⟨w⟩ : String) ++ " " ++ (⟨u⟩ : String) = ⟨w ++ ' ' :: u⟩ := by
      apply congrArg String.mk
      simp [data_append]
    rw [h1, ih, joinSp_cons_append]
    simp [joinSp]

/-- Accumulating all words of the split restores the original text. -/
theorem revealAccum_jsSplit (s : String) :
    ∀ w rest, jsSplit s = w :: rest → revealAccum w rest = s := by
  intro w rest h
  obtain ⟨w', ws', hsplit⟩ := List.exists_cons_of_ne_nil (splitSpAux_ne_nil s.data [])
  have hmap : jsSplit s = (⟨w'⟩ : String) :: ws'.map (fun l => ⟨l⟩) := by
    rw [jsSplit, hsplit]; rfl
  rw [hmap] at h
  cases h
  rw [revealAccum_eq_joinSp, ← hsplit, joinSp_splitSpAux]
  simp

/-- Unfolding lemma: zero ticks change nothing. -/
theorem runTicks_zero (T : List CommandEntry) (st : TermState) :
    runTicks T 0 st = st := rfl

/-- Unfolding lemma: a tick run peels one tick at a time. -/
theorem runTicks_succ (T : List CommandEntry) (n : Nat) (st : TermState) :
    runTicks T (n + 1) st = runTicks T n (stepT T .tick st) := rfl

/-- Updating the content of a transcript ending in an Output line. -/
theorem updateLastOutput_concat (L : List TermLine) (cur c : String) :
    updateLastOutput (L ++ [{ kind := .line_output, content := cur }]) c =
      L ++ [{ kind := .line_output, content := c }] := by
  simp [updateLastOutput, List.getLast?_concat, List.dropLast_concat]

/-- Running a suspended reveal to completion: one tick per remaining word
plus the final delay tick.  The last Output line ends up holding the
accumulated text, the processing flag clears, no other field changes. -/
theorem runTicks_reveal (T : List CommandEntry) (rest : List String) :
    ∀ (cur : String) (L : List TermLine) (st : TermState),
      st.pending = some (.reveal rest cur) →
      st.lines = L ++ [{ kind := .line_output, content := cur }] →
      runTicks T (rest.length + 1) st =
        { st with
            lines := L ++ [{ kind := .line_output, content := revealAccum cur rest }]
            isProcessing := false
            pending := none } := by
  induction rest with
  | nil =>
    intro cur L st hp hl
    simp only [List.length_nil]
    rw [runTicks_succ, runTicks_zero]
    simp [stepT, hp, hl, revealAccum]
  | cons w ws ih =>
    intro cur L st hp hl
    rw [List.length_cons, runTicks_succ]
    have hstep : stepT T .tick st =
        { st with
            lines := L ++ [{ kind := .line_output, content := cur ++ " " ++ w }]
            pending := some (.reveal ws (cur ++ " " ++ w)) } := by
      simp [stepT, hp, hl, updateLastOutput_concat]
    rw [hstep]
    rw [ih (cur ++ " " ++ w) L _ rfl rfl]
    simp [revealAccum]

/-! ### Claim C1: command matching -/

/-- C1: after trimming, lowercasing and collapsing consecutive whitespace,
the matcher selects a table entry exactly when the normalised input equals
the entry trigger or starts with the trigger followed by a space, the
first entry in declaration order winning when several could match; in
particular "ui-kit setup --verbose" selects the "ui-kit setup" entry. -/
theorem C1_matcher_first_match_wins :
    (∀ (cmd : String) (e : CommandEntry),
        findMatch DEMO_COMMANDS cmd = some e ↔
          entryMatches cmd e = true ∧
            ∃ pre post, DEMO_COMMANDS = pre ++ e :: post ∧
              ∀ x ∈ pre, entryMatches cmd x = false)
      ∧ findMatch DEMO_COMMANDS "ui-kit setup --verbose" = some uiKitSetupCmd := by
  constructor
  · intro cmd e
    rw [findMatch, List.find?_eq_some]
    simp
  · decide

/-- Witness for C1 at the concrete input "ui-kit setup --verbose". -/
theorem C1_matcher_first_match_wins_witness :
    entryMatches "ui-kit setup --verbose" uiKitSetupCmd = true ∧
      ∃ pre post, DEMO_COMMANDS = pre ++ uiKitSetupCmd :: post ∧
        ∀ x ∈ pre, entryMatches "ui-kit setup --verbose" x = false :=
  (C1_matcher_first_match_wins.1 "ui-kit setup --verbose" uiKitSetupCmd).mp
    C1_matcher_first_match_wins.2

/-! ### Claim C2: the reveal restores the full canned text -/

/-- C2: for every matched command entry, once the word-by-word reveal
completes, the Output line appended for it contains exactly the entry
full canned output text; in particular submitting "help" ends with the
exact canned help text in the transcript. -/
theorem C2_reveal_restores_full_text :
    (∀ (T : List CommandEntry) (e : CommandEntry) (cmd : String) (st : TermState),
        st.pending = some (.waitMatch cmd (some e)) →
        runTicks T (revealTickCount e) st =
          { st with
              lines := st.lines ++ [{ kind := .line_output, content := e.output }]
              isProcessing := false
              pending := none })
      ∧ (runTicks DEMO_COMMANDS (revealTickCount helpCmd)
            (step .keyEnter { initState with currentInput := "help" })).lines =
          initState.lines ++
            [{ kind := .line_input, content := "$ shuriken help" },
             { kind := .line_output, content := helpCmd.output }] := by
  have main : ∀ (T : List CommandEntry) (e : CommandEntry) (cmd : String) (st : TermState),
      st.pending = some (.waitMatch cmd (some e)) →
      runTicks T (revealTickCount e) st =
        { st with
            lines := st.lines ++ [{ kind := .line_output, content := e.output }]
            isProcessing := false
            pending := none } := by
    intro T e cmd st hp
    have hne : jsSplit e.output ≠ [] := by
      rw [jsSplit]
      simp only [ne_eq, List.map_eq_nil_iff]
      exact splitSpAux_ne_nil _ _
    obtain ⟨w, ws, hws⟩ := List.exists_cons_of_ne_nil hne
    rw [revealTickCount, hws, List.length_cons, runTicks_succ]
    have hstep : stepT T .tick st =
        { st with
            lines := st.lines ++ [{ kind := .line_output, content := w }]
            pending := some (.reveal ws w) } := by
      simp [stepT, hp, hws]
    rw [hstep]
    rw [runTicks_reveal T ws w st.lines _ rfl rfl]
    rw [revealAccum_jsSplit e.output w ws hws]
  refine ⟨main, ?_⟩
  have hstep2 : step .keyEnter { initState with currentInput := "help" } =
      { initState with
          lines := initState.lines ++ [{ kind := .line_input, content := "$ shuriken help" }]
          commandHistory := ["help"]
          isProcessing := true
          pending := some (.waitMatch "help" (some helpCmd)) } := by
    decide
  rw [hstep2, main DEMO_COMMANDS helpCmd "help" _ rfl]
  simp

/-- Witness for C2: the version entry reveal run at a concrete state,
ending with the exact canned text. -/
theorem C2_reveal_restores_full_text_witness :
    runTicks DEMO_COMMANDS (revealTickCount versionCmd)
        { lines := [], currentInput := "", isProcessing := true, commandHistory := ["version"],
          historyIndex := -1, pending := some (.waitMatch "version" (some versionCmd)) } =
      { lines := [{ kind := .line_output, content := versionCmd.output }], currentInput := "",
        isProcessing := false, commandHistory := ["version"], historyIndex := -1,
        pending := none } :=
  C2_reveal_restores_full_text.1 DEMO_COMMANDS versionCmd "version" _ rfl

/-! ### Claim C3: the special-case clear command -/

/-- C3: submitting "clear" (after trimming and lowercasing) resets the
transcript to exactly one Info line, whatever the prior transcript was;
the result is the same for every command table (the branch runs before
matching and performs no lookup), and history, cursor and pending are
untouched. -/
theorem C3_clear_resets_transcript :
    ∀ (T : List CommandEntry) (st : TermState),
      st.isProcessing = false →
      jsToLower (jsTrim st.currentInput) = "clear" →
      stepT T .keyEnter st = { st with lines := [clearedLine], currentInput := "" } := by
  intro T st hp hc
  have htrim : ¬ jsTrim st.currentInput = "" := by
    intro h
    rw [h] at hc
    exact absurd hc (by decide)
  simp [stepT, hp, htrim, hc]

/-- Witness for C3: clearing from a concrete three-line transcript with an
active history cursor. -/
theorem C3_clear_resets_transcript_witness :
    stepT DEMO_COMMANDS .keyEnter
        { lines := [{ kind := .line_info, content := "a" },
                    { kind := .line_output, content := "b" },
                    { kind := .line_error, content := "c" }],
          currentInput := "  CLEAR  ", isProcessing := false,
          commandHistory := ["x", "y"], historyIndex := 1, pending := none } =
      { lines := [clearedLine], currentInput := "", isProcessing := false,
        commandHistory := ["x", "y"], historyIndex := 1, pending := none } :=
  C3_clear_resets_transcript DEMO_COMMANDS _ rfl (by decide)

/-! ### Claim C10: empty or whitespace-only submission is a no-op -/

/-- C10: submitting an empty or whitespace-only input leaves the whole
state (transcript, history, cursor, processing flag, input buffer)
unchanged, for every command table. -/
theorem C10_blank_submit_is_noop :
    ∀ (T : List CommandEntry) (st : TermState),
      jsTrim st.currentInput = "" → stepT T .keyEnter st = st := by
  intro T st h
  by_cases hp : st.isProcessing <;> simp [stepT, hp, h]

/-- Witness for C10 at a whitespace-only input. -/
theorem C10_blank_submit_is_noop_witness :
    stepT DEMO_COMMANDS .keyEnter { initState with currentInput := "   " } =
      { initState with currentInput := "   " } :=
  C10_blank_submit_is_noop DEMO_COMMANDS _ (by decide)

/-! ### Claim C5: the processing flag blocks submissions -/

/-- C5: while a reveal is in flight the processing flag is set (the
invariant holds initially and is preserved by every event), and any
submission in the processing state leaves the state - in particular the
transcript - completely unchanged, so at most one reveal is ever in
flight and only after it completes can a submission append lines. -/
theorem C5_processing_blocks_submissions :
    (∀ (T : List CommandEntry) (st : TermState),
        st.isProcessing = true → stepT T .keyEnter st = st)
      ∧ ProcessingInv initState
      ∧ (∀ (T : List CommandEntry) (ev : Event) (st : TermState),
          ProcessingInv st → ProcessingInv (stepT T ev st)) := by
  refine ⟨?_, ?_, ?_⟩
  · intro T st hp
    simp [stepT, hp]
  · intro h
    exact absurd rfl h
  · intro T ev st hInv
    simp only [ProcessingInv] at hInv ⊢
    cases ev with
    | keyEnter =>
      by_cases hp : st.isProcessing
      · simpa [stepT, hp] using hInv
      · have hpend : st.pending = none := by
          by_contra hne
          simp [hInv hne] at hp
        by_cases ht : jsTrim st.currentInput = ""
        · simpa [stepT, hp, ht] using hInv
        · by_cases hclear : jsToLower (jsTrim st.currentInput) = "clear"
          · simp [stepT, hp, ht, hclear, hpend]
          · by_cases hemp : jsToLower (jsTrim st.currentInput) = ""
            · simp [stepT, hp, ht, hclear, hemp, hpend]
            · simp [stepT, hp, ht, hclear, hemp]
    | keyArrowUp =>
      by_cases hp : st.isProcessing
      · simpa [stepT, hp] using hInv
      · by_cases hh : 0 < st.commandHistory.length
        · simpa [stepT, hp, hh] using hInv
        · simpa [stepT, hp, hh] using hInv
    | keyArrowDown =>
      by_cases hp : st.isProcessing
      · simpa [stepT, hp] using hInv
      · by_cases hh : -1 < st.historyIndex
        · by_cases hge : (st.commandHistory.length : Int) ≤ st.historyIndex + 1
          · simpa [stepT, hp, hh, hge] using hInv
          · simpa [stepT, hp, hh, hge] using hInv
        · simpa [stepT, hp, hh] using hInv
    | setInputText s =>
      by_cases hp : st.isProcessing
      · simpa [stepT, hp] using hInv
      · simpa [stepT, hp] using hInv
    | suggestionClick s =>
      by_cases hp : st.isProcessing
      · simpa [stepT, hp] using hInv
      · simpa [stepT, hp] using hInv
    | tick =>
      match hpend : st.pending with
      | none => simpa [stepT, hpend] using hInv
      | some (.waitMatch cmd none) =>
        simp [stepT, hpend]
      | some (.waitMatch cmd (some e)) =>
        match hws : jsSplit e.output with
        | [] =>
          simp [stepT, hpend, hws]
        | w :: ws =>
          intro _
          simp only [stepT, hpend, hws]
          exact hInv (by simp [hpend])
      | some (.reveal [] cur) =>
        simp [stepT, hpend]
      | some (.reveal (w :: ws) cur) =>
        intro _
        simp only [stepT, hpend]
        exact hInv (by simp [hpend])

/-- Witness for C5: a concrete mid-reveal state where Enter does nothing
and the invariant survives a tick. -/
theorem C5_processing_blocks_submissions_witness :
    stepT DEMO_COMMANDS .keyEnter
        { lines := [{ kind := .line_output, content := "halfway" }],
          currentInput := "help", isProcessing := true, commandHistory := ["version"],
          historyIndex := -1, pending := some (.reveal ["text"] "halfway") } =
      { lines := [{ kind := .line_output, content := "halfway" }],
        currentInput := "help", isProcessing := true, commandHistory := ["version"],
        historyIndex := -1, pending := some (.reveal ["text"] "halfway") } ∧
    ProcessingInv (stepT DEMO_COMMANDS .tick
        { lines := [{ kind := .line_output, content := "halfway" }],
          currentInput := "help", isProcessing := true, commandHistory := ["version"],
          historyIndex := -1, pending := some (.reveal ["text"] "halfway") }) :=
  ⟨C5_processing_blocks_submissions.1 DEMO_COMMANDS _ rfl,
   C5_processing_blocks_submissions.2.2 DEMO_COMMANDS .tick _ (fun _ => rfl)⟩

/-! ### Claim C4: history recall -/

/-- C4: after submitting A, then B, then C, successive "recall previous"
events show C, then B, then A, then stay at A (clamped at index 0); a
"recall next" with the cursor active moves one step toward the newest
entry, and moving past the newest entry deactivates the cursor and clears
the input buffer. -/
theorem C4_history_recall (a b c : String) (st : TermState)
    (hp : st.isProcessing = false) (hh : st.commandHistory = [a, b, c])
    (hi : st.historyIndex = -1) :
    ((step .keyArrowUp st).currentInput = c ∧
      (step .keyArrowUp st).historyIndex = 2 ∧
      (step .keyArrowUp (step .keyArrowUp st)).currentInput = b ∧
      (step .keyArrowUp (step .keyArrowUp st)).historyIndex = 1 ∧
      (step .keyArrowUp (step .keyArrowUp (step .keyArrowUp st))).currentInput = a ∧
      (step .keyArrowUp (step .keyArrowUp (step .keyArrowUp st))).historyIndex = 0 ∧
      (step .keyArrowUp (step .keyArrowUp (step .keyArrowUp (step .keyArrowUp st)))).currentInput = a ∧
      (step .keyArrowUp (step .keyArrowUp (step .keyArrowUp (step .keyArrowUp st)))).historyIndex = 0)
    ∧ (∀ st' : TermState, st'.isProcessing = false →
        0 ≤ st'.historyIndex → st'.historyIndex < (st'.commandHistory.length : Int) →
        ((st'.historyIndex + 1 < (st'.commandHistory.length : Int) →
            (step .keyArrowDown st').historyIndex = st'.historyIndex + 1 ∧
            (step .keyArrowDown st').currentInput =
              st'.commandHistory.getD (st'.historyIndex + 1).toNat "") ∧
          ((st'.commandHistory.length : Int) ≤ st'.historyIndex + 1 →
            (step .keyArrowDown st').historyIndex = -1 ∧
            (step .keyArrowDown st').currentInput = ""))) := by
  constructor
  · have h1 : step .keyArrowUp st =
        { st with historyIndex := 2, currentInput := c } := by
      simp [step, stepT, hp, hh, hi]
    have h2 : step .keyArrowUp { st with historyIndex := 2, currentInput := c } =
        { st with historyIndex := 1, currentInput := b } := by
      simp [step, stepT, hp, hh]
    have h3 : step .keyArrowUp { st with historyIndex := 1, currentInput := b } =
        { st with historyIndex := 0, currentInput := a } := by
      simp [step, stepT, hp, hh]
    have h4 : step .keyArrowUp { st with historyIndex := 0, currentInput := a } =
        { st with historyIndex := 0, currentInput := a } := by
      simp [step, stepT, hp, hh]
    rw [h1, h2, h3, h4]
    simp
  · intro st' hp' hge hlt
    constructor
    · intro hstep
      have hne : ¬ (st'.commandHistory.length : Int) ≤ st'.historyIndex + 1 := by omega
      have hact : -1 < st'.historyIndex := by omega
      simp [step, stepT, hp', hact, hne]
    · intro hend
      have hact : -1 < st'.historyIndex := by omega
      simp [step, stepT, hp', hact, hend]

/-- Witness for C4 at concrete history entries a, b, c and a concrete
mid-history cursor for the recall-next part. -/
theorem C4_history_recall_witness :
    ((step .keyArrowUp { initState with commandHistory := ["a", "b", "c"] }).currentInput = "c" ∧
      (step .keyArrowUp { initState with commandHistory := ["a", "b", "c"] }).historyIndex = 2 ∧
      (step .keyArrowUp (step .keyArrowUp { initState with commandHistory := ["a", "b", "c"] })).currentInput = "b" ∧
      (step .keyArrowUp (step .keyArrowUp { initState with commandHistory := ["a", "b", "c"] })).historyIndex = 1 ∧
      (step .keyArrowUp (step .keyArrowUp (step .keyArrowUp { initState with commandHistory := ["a", "b", "c"] }))).currentInput = "a" ∧
      (step .keyArrowUp (step .keyArrowUp (step .keyArrowUp { initState with commandHistory := ["a", "b", "c"] }))).historyIndex = 0 ∧
      (step .keyArrowUp (step .keyArrowUp (step .keyArrowUp (step .keyArrowUp { initState with commandHistory := ["a", "b", "c"] })))).currentInput = "a" ∧
      (step .keyArrowUp (step .keyArrowUp (step .keyArrowUp (step .keyArrowUp { initState with commandHistory := ["a", "b", "c"] })))).historyIndex = 0)
    ∧ (((0 : Int) + 1 < (([("a" : String), "b", "c"].length : Int)) →
          (step .keyArrowDown { initState with commandHistory := ["a", "b", "c"], historyIndex := 0 }).historyIndex = 0 + 1 ∧
          (step .keyArrowDown { initState with commandHistory := ["a", "b", "c"], historyIndex := 0 }).currentInput =
            ["a", "b", "c"].getD ((0 : Int) + 1).toNat "") ∧
        ((([("a" : String), "b", "c"].length : Int)) ≤ (0 : Int) + 1 →
          (step .keyArrowDown { initState with commandHistory := ["a", "b", "c"], historyIndex := 0 }).historyIndex = -1 ∧
          (step .keyArrowDown { initState with commandHistory := ["a", "b", "c"], historyIndex := 0 }).currentInput = "")) :=
  ⟨(C4_history_recall "a" "b" "c" { initState with commandHistory := ["a", "b", "c"] }
      rfl rfl rfl).1,
   (C4_history_recall "a" "b" "c" { initState with commandHistory := ["a", "b", "c"] }
      rfl rfl rfl).2
      { initState with commandHistory := ["a", "b", "c"], historyIndex := 0 }
      rfl (by decide) (by decide)⟩

/-! ### Claim C6: unrecognised command produces one Error line -/

/-- C6: for every non-empty submitted input that is not "clear" and
matches no trigger exactly or by prefix, the submission appends the input
echo line and then exactly one line of kind Error naming the unrecognised
command and hinting at "help"; afterwards the processing flag is clear
and nothing is pending, so the widget accepts the next input. -/
theorem C6_unmatched_command_error_line :
    ∀ (st : TermState),
      st.isProcessing = false →
      jsToLower (jsTrim st.currentInput) ≠ "" →
      jsToLower (jsTrim st.currentInput) ≠ "clear" →
      (∀ e ∈ DEMO_COMMANDS, entryMatches st.currentInput e = false) →
      step .tick (step .keyEnter st) =
        { st with
            lines := st.lines ++
              [{ kind := .line_input, content := "$ shuriken " ++ st.currentInput },
               errorLine st.currentInput]
            currentInput := ""
            isProcessing := false
            commandHistory := st.commandHistory ++ [st.currentInput]
            historyIndex := -1
            pending := none } := by
  intro st hp hne hclear hnomatch
  have htrim : ¬ jsTrim st.currentInput = "" := by
    intro h
    apply hne
    rw [h]
    decide
  have hfind : findMatch DEMO_COMMANDS st.currentInput = none := by
    rw [findMatch, List.find?_eq_none]
    intro e he
    simp [hnomatch e he]
  have h1 : step .keyEnter st =
      { st with
          commandHistory := st.commandHistory ++ [st.currentInput]
          historyIndex := -1
          lines := st.lines ++
            [{ kind := .line_input, content := "$ shuriken " ++ st.currentInput }]
          isProcessing := true
          pending := some (.waitMatch st.currentInput none)
          currentInput := "" } := by
    simp [step, stepT, hp, htrim, hclear, hne, hfind]
  rw [h1]
  simp [step, stepT, errorLine]

/-- Witness for C6 at the concrete unrecognised input "frobnicate". -/
theorem C6_unmatched_command_error_line_witness :
    step .tick (step .keyEnter { initState with currentInput := "frobnicate" }) =
      { initState with
          lines := initState.lines ++
            [{ kind := .line_input, content := "$ shuriken frobnicate" },
             errorLine "frobnicate"]
          currentInput := ""
          isProcessing := false
          commandHistory := ["frobnicate"]
          historyIndex := -1
          pending := none } :=
  C6_unmatched_command_error_line { initState with currentInput := "frobnicate" }
    rfl (by decide) (by decide) (by decide)

/-! ### Claim C7: history append on submission (corrected) -/

/-- Counterexample to C7 as stated: submitting the raw input "clear" is a
command submission, yet the code returns from the clear branch before
touching history or the cursor, so the raw input is not appended and an
active cursor is not reset. -/
theorem C7_clear_submission_skips_history_cex :
    ¬ ((step .keyEnter
          { lines := [clearedLine], currentInput := "clear", isProcessing := false,
            commandHistory := ["ui-kit setup"], historyIndex := 0,
            pending := none }).commandHistory = ["ui-kit setup"] ++ ["clear"] ∧
       (step .keyEnter
          { lines := [clearedLine], currentInput := "clear", isProcessing := false,
            commandHistory := ["ui-kit setup"], historyIndex := 0,
            pending := none }).historyIndex = -1) := by
  decide

/-- C7 (amended): on every command submission other than the special-case
"clear", the raw (non-normalised, non-case-folded) input string is
appended to the history entries and the cursor resets to inactive; a
"clear" submission leaves both the history and the cursor unchanged. -/
theorem C7_submission_appends_raw_history :
    ∀ (T : List CommandEntry) (st : TermState),
      st.isProcessing = false →
      jsToLower (jsTrim st.currentInput) ≠ "" →
      ((jsToLower (jsTrim st.currentInput) ≠ "clear" →
          (stepT T .keyEnter st).commandHistory = st.commandHistory ++ [st.currentInput] ∧
          (stepT T .keyEnter st).historyIndex = -1) ∧
        (jsToLower (jsTrim st.currentInput) = "clear" →
          (stepT T .keyEnter st).commandHistory = st.commandHistory ∧
          (stepT T .keyEnter st).historyIndex = st.historyIndex)) := by
  intro T st hp hne
  have htrim : ¬ jsTrim st.currentInput = "" := by
    intro h
    apply hne
    rw [h]
    decide
  constructor
  · intro hclear
    simp [stepT, hp, htrim, hclear, hne]
  · intro hclear
    simp [stepT, hp, htrim, hclear]

/-- Witness for the amended C7: a raw mixed-case input is appended
verbatim and the cursor resets; a "clear" submission changes neither. -/
theorem C7_submission_appends_raw_history_witness :
    ((stepT DEMO_COMMANDS .keyEnter
        { initState with currentInput := "  HeLp  ", historyIndex := 0,
                         commandHistory := ["old"] }).commandHistory =
        ["old"] ++ ["  HeLp  "] ∧
      (stepT DEMO_COMMANDS .keyEnter
        { initState with currentInput := "  HeLp  ", historyIndex := 0,
                         commandHistory := ["old"] }).historyIndex = -1) ∧
    ((stepT DEMO_COMMANDS .keyEnter
        { initState with currentInput := "clear", historyIndex := 0,
                         commandHistory := ["old"] }).commandHistory = ["old"] ∧
      (stepT DEMO_COMMANDS .keyEnter
        { initState with currentInput := "clear", historyIndex := 0,
                         commandHistory := ["old"] }).historyIndex = 0) :=
  ⟨(C7_submission_appends_raw_history DEMO_COMMANDS
      { initState with currentInput := "  HeLp  ", historyIndex := 0,
                       commandHistory := ["old"] }
      rfl (by decide)).1 (by decide),
   (C7_submission_appends_raw_history DEMO_COMMANDS
      { initState with currentInput := "clear", historyIndex := 0,
                       commandHistory := ["old"] }
      rfl (by decide)).2 (by decide)⟩

/-! ### Claim C8: history-cursor invariant (corrected) -/

/-- Counterexample to C8 as stated: typing into the input while the
cursor is active changes the buffer without deactivating the cursor, so
the displayed buffer no longer equals the history entry at the cursor.
The run: submit "a", let it finish, recall it with ArrowUp, then type
"ab". -/
theorem C8_typing_desyncs_cursor_cex :
    (step (.setInputText "ab")
        (step .keyArrowUp
          (step .tick
            (step .keyEnter
              (step (.setInputText "a") initState))))).historyIndex = 0 ∧
    (step (.setInputText "ab")
        (step .keyArrowUp
          (step .tick
            (step .keyEnter
              (step (.setInputText "a") initState))))).commandHistory = ["a"] ∧
    ¬ ((step (.setInputText "ab")
          (step .keyArrowUp
            (step .tick
              (step .keyEnter
                (step (.setInputText "a") initState))))).currentInput =
        (step (.setInputText "ab")
            (step .keyArrowUp
              (step .tick
                (step .keyEnter
                  (step (.setInputText "a") initState))))).commandHistory.getD 0 "") := by
  decide

/-- C8 (amended): in every reachable state an active cursor indexes a
valid position in the history (the invariant holds initially and is
preserved by every event); immediately after a recall event the displayed
buffer equals the history entry at the cursor; but typing into the input
or clicking a suggestion can change the buffer without deactivating the
cursor, so buffer-cursor agreement is not itself an invariant. -/
theorem C8_cursor_always_valid :
    CursorInv initState
    ∧ (∀ (T : List CommandEntry) (ev : Event) (st : TermState),
        CursorInv st → CursorInv (stepT T ev st))
    ∧ (∀ (T : List CommandEntry) (st : TermState),
        st.isProcessing = false → st.commandHistory ≠ [] → CursorInv st →
        (stepT T .keyArrowUp st).currentInput =
          (stepT T .keyArrowUp st).commandHistory.getD
            (stepT T .keyArrowUp st).historyIndex.toNat "" ∧
        CursorInv (stepT T .keyArrowUp st))
    ∧ (∀ (T : List CommandEntry) (st : TermState),
        st.isProcessing = false → -1 < st.historyIndex →
        st.historyIndex + 1 < (st.commandHistory.length : Int) →
        (stepT T .keyArrowDown st).currentInput =
          (stepT T .keyArrowDown st).commandHistory.getD
            (stepT T .keyArrowDown st).historyIndex.toNat "") := by
  have preserved : ∀ (T : List CommandEntry) (ev : Event) (st : TermState),
      CursorInv st → CursorInv (stepT T ev st) := by
    intro T ev st hInv
    simp only [CursorInv] at hInv ⊢
    cases ev with
    | keyEnter =>
      by_cases hp : st.isProcessing
      · simpa [stepT, hp] using hInv
      · by_cases ht : jsTrim st.currentInput = ""
        · simpa [stepT, hp, ht] using hInv
        · by_cases hclear : jsToLower (jsTrim st.currentInput) = "clear"
          · simpa [stepT, hp, ht, hclear] using hInv
          · by_cases hemp : jsToLower (jsTrim st.currentInput) = ""
            · simpa [stepT, hp, ht, hclear, hemp] using hInv
            · simp [stepT, hp, ht, hclear, hemp]
    | keyArrowUp =>
      by_cases hp : st.isProcessing
      · simpa [stepT, hp] using hInv
      · by_cases hh : 0 < st.commandHistory.length
        · by_cases hi : st.historyIndex = -1
          · simp [stepT, hp, hh, hi]
            omega
          · simp [stepT, hp, hh, hi]
            omega
        · simpa [stepT, hp, hh] using hInv
    | keyArrowDown =>
      by_cases hp : st.isProcessing
      · simpa [stepT, hp] using hInv
      · by_cases hi : -1 < st.historyIndex
        · by_cases hge : (st.commandHistory.length : Int) ≤ st.historyIndex + 1
          · simp [stepT, hp, hi, hge]
          · simp [stepT, hp, hi, hge]
            omega
        · simpa [stepT, hp, hi] using hInv
    | setInputText s =>
      by_cases hp : st.isProcessing
      · simpa [stepT, hp] using hInv
      · simpa [stepT, hp] using hInv
    | suggestionClick s =>
      by_cases hp : st.isProcessing
      · simpa [stepT, hp] using hInv
      · simpa [stepT, hp] using hInv
    | tick =>
      match hpend : st.pending with
      | none => simpa [stepT, hpend] using hInv
      | some (.waitMatch cmd none) =>
        simpa [stepT, hpend] using hInv
      | some (.waitMatch cmd (some e)) =>
        match hws : jsSplit e.output with
        | [] => simpa [stepT, hpend, hws] using hInv
        | w :: ws => simpa [stepT, hpend, hws] using hInv
      | some (.reveal [] cur) =>
        simpa [stepT, hpend] using hInv
      | some (.reveal (w :: ws) cur) =>
        simpa [stepT, hpend] using hInv
  refine ⟨Or.inl rfl, preserved, ?_, ?_⟩
  · intro T st hp hne hInv
    have hh : 0 < st.commandHistory.length := List.length_pos.mpr hne
    refine ⟨?_, preserved T .keyArrowUp st hInv⟩
    by_cases hi : st.historyIndex = -1
    · simp [stepT, hp, hh, hi]
    · simp [stepT, hp, hh, hi]
  · intro T st hp hi hlt
    have hge : ¬ (st.commandHistory.length : Int) ≤ st.historyIndex + 1 := by omega
    simp [stepT, hp, hi, hge]

/-- Witness for the amended C8: the invariant transported through a
concrete ArrowUp recall where the buffer agrees with the entry. -/
theorem C8_cursor_always_valid_witness :
    ((stepT DEMO_COMMANDS .keyArrowUp
        { initState with commandHistory := ["a", "b"] }).currentInput =
      (stepT DEMO_COMMANDS .keyArrowUp
          { initState with commandHistory := ["a", "b"] }).commandHistory.getD
        (stepT DEMO_COMMANDS .keyArrowUp
            { initState with commandHistory := ["a", "b"] }).historyIndex.toNat "" ∧
      CursorInv (stepT DEMO_COMMANDS .keyArrowUp
        { initState with commandHistory := ["a", "b"] })) ∧
    CursorInv (stepT DEMO_COMMANDS .keyEnter
      { initState with currentInput := "version" }) :=
  ⟨C8_cursor_always_valid.2.2.1 DEMO_COMMANDS
      { initState with commandHistory := ["a", "b"] } rfl (by decide) (Or.inl rfl),
   C8_cursor_always_valid.2.1 DEMO_COMMANDS .keyEnter
      { initState with currentInput := "version" } (Or.inl rfl)⟩

/-! ### Claim C9: transcript immutability (corrected) -/

/-- A list with a last element decomposes as its front plus that element. -/
theorem eq_dropLast_concat_of_getLast? {α : Type} (l : List α) (a : α)
    (h : l.getLast? = some a) : l = l.dropLast ++ [a] := by
  cases hl : l with
  | nil => rw [hl] at h; exact absurd h (by simp)
  | cons x xs =>
    rw [hl] at h
    have hne : x :: xs ≠ [] := by simp
    rw [List.getLast?_eq_getLast _ hne] at h
    have hconcat := List.dropLast_concat_getLast hne
    rw [Option.some.injEq] at h
    rw [h] at hconcat
    exact hconcat.symm

/-- Counterexample to C9 as stated: during the reveal of the "version"
output, the second reveal tick rewrites the existing last Output line (the
transcript keeps its length while line 3 changes from the first word to
the first two words), and the transition is not the clear reset. -/
theorem C9_reveal_rewrites_line_cex :
    (step .tick
        (step .keyEnter (step (.setInputText "version") initState))).lines.length =
      (step .tick (step .tick
        (step .keyEnter (step (.setInputText "version") initState)))).lines.length ∧
    ¬ ((step .tick
          (step .keyEnter (step (.setInputText "version") initState))).lines.getD 3
            { kind := .line_info, content := "" } =
        (step .tick (step .tick
          (step .keyEnter (step (.setInputText "version") initState)))).lines.getD 3
            { kind := .line_info, content := "" }) ∧
    ¬ ((step .tick (step .tick
          (step .keyEnter (step (.setInputText "version") initState)))).lines =
        [clearedLine]) := by
  decide

/-- C9 (amended): across every widget transition the transcript evolves
append-only up to the in-flight reveal line: every transition either
appends to the existing lines, or is the explicit clear reset, or only
replaces the content of a final Output line leaving all earlier lines in
place; and the reveal-step replacement extends the accumulated text by a
space and the next word. -/
theorem C9_transcript_append_only :
    (∀ (T : List CommandEntry) (ev : Event) (st : TermState),
        (∃ tail, (stepT T ev st).lines = st.lines ++ tail) ∨
        (stepT T ev st).lines = [clearedLine] ∨
        (∃ pre k c, st.lines = pre ++ [{ kind := .line_output, content := k }] ∧
          (stepT T ev st).lines = pre ++ [{ kind := .line_output, content := c }]))
    ∧ (∀ (T : List CommandEntry) (st : TermState) (pre : List TermLine)
          (cur w : String) (ws : List String),
        st.pending = some (.reveal (w :: ws) cur) →
        st.lines = pre ++ [{ kind := .line_output, content := cur }] →
        (stepT T .tick st).lines =
          pre ++ [{ kind := .line_output, content := cur ++ " " ++ w }]) := by
  constructor
  · intro T ev st
    cases ev with
    | keyEnter =>
      by_cases hp : st.isProcessing
      · exact Or.inl ⟨[], by simp [stepT, hp]⟩
      · by_cases ht : jsTrim st.currentInput = ""
        · exact Or.inl ⟨[], by simp [stepT, hp, ht]⟩
        · by_cases hclear : jsToLower (jsTrim st.currentInput) = "clear"
          · exact Or.inr (Or.inl (by simp [stepT, hp, ht, hclear]))
          · by_cases hemp : jsToLower (jsTrim st.currentInput) = ""
            · exact Or.inl ⟨[], by simp [stepT, hp, ht, hclear, hemp]⟩
            · exact Or.inl ⟨[{ kind := .line_input, content := "$ shuriken " ++ st.currentInput }],
                by simp [stepT, hp, ht, hclear, hemp]⟩
    | keyArrowUp =>
      by_cases hp : st.isProcessing
      · exact Or.inl ⟨[], by simp [stepT, hp]⟩
      · by_cases hh : 0 < st.commandHistory.length
        · exact Or.inl ⟨[], by simp [stepT, hp, hh]⟩
        · exact Or.inl ⟨[], by simp [stepT, hp, hh]⟩
    | keyArrowDown =>
      by_cases hp : st.isProcessing
      · exact Or.inl ⟨[], by simp [stepT, hp]⟩
      · by_cases hi : -1 < st.historyIndex
        · by_cases hge : (st.commandHistory.length : Int) ≤ st.historyIndex + 1
          · exact Or.inl ⟨[], by simp [stepT, hp, hi, hge]⟩
          · exact Or.inl ⟨[], by simp [stepT, hp, hi, hge]⟩
        · exact Or.inl ⟨[], by simp [stepT, hp, hi]⟩
    | setInputText s =>
      by_cases hp : st.isProcessing
      · exact Or.inl ⟨[], by simp [stepT, hp]⟩
      · exact Or.inl ⟨[], by simp [stepT, hp]⟩
    | suggestionClick s =>
      by_cases hp : st.isProcessing
      · exact Or.inl ⟨[], by simp [stepT, hp]⟩
      · exact Or.inl ⟨[], by simp [stepT, hp]⟩
    | tick =>
      match hpend : st.pending with
      | none => exact Or.inl ⟨[], by simp [stepT, hpend]⟩
      | some (.waitMatch cmd none) =>
        exact Or.inl ⟨[errorLine cmd], by simp [stepT, hpend]⟩
      | some (.waitMatch cmd (some e)) =>
        match hws : jsSplit e.output with
        | [] =>
          exact Or.inl ⟨[{ kind := .line_output, content := "" }], by simp [stepT, hpend, hws]⟩
        | w :: ws =>
          exact Or.inl ⟨[{ kind := .line_output, content := w }], by simp [stepT, hpend, hws]⟩
      | some (.reveal [] cur) => exact Or.inl ⟨[], by simp [stepT, hpend]⟩
      | some (.reveal (w :: ws) cur) =>
        match hlast : st.lines.getLast? with
        | none =>
          exact Or.inl ⟨[], by simp [stepT, hpend, updateLastOutput, hlast]⟩
        | some l =>
          by_cases hk : l.kind = .line_output
          · refine Or.inr (Or.inr ⟨st.lines.dropLast, l.content, cur ++ " " ++ w, ?_, ?_⟩)
            · have hdec := eq_dropLast_concat_of_getLast? st.lines l hlast
              rw [← hk]
              exact hdec
            · simp [stepT, hpend, updateLastOutput, hlast, hk]
          · exact Or.inl ⟨[], by simp [stepT, hpend, updateLastOutput, hlast, hk]⟩
  · intro T st pre cur w ws hp hl
    simp [stepT, hp, hl, updateLastOutput_concat]

/-- Witness for the amended C9: a concrete reveal tick extends the last
Output line by one word. -/
theorem C9_transcript_append_only_witness :
    (stepT DEMO_COMMANDS .tick
        { lines := [{ kind := .line_output, content := "ab" }], currentInput := "",
          isProcessing := true, commandHistory := [], historyIndex := -1,
          pending := some (.reveal ["cd"] "ab") }).lines =
      [] ++ [{ kind := .line_output, content := "ab" ++ " " ++ "cd" }] :=
  C9_transcript_append_only.2 DEMO_COMMANDS
    { lines := [{ kind := .line_output, content := "ab" }], currentInput := "",
      isProcessing := true, commandHistory := [], historyIndex := -1,
      pending := some (.reveal ["cd"] "ab") }
    [] "ab" "cd" [] rfl rfl

end ShurikenTerm
